import Mathlib

/-!
Verification of the Wandr itinerary engine: a shallow embedding of the
data model (models/activity.py, models/preferences.py, models/trip.py,
models/dayplan.py), the scoring engine (engine/scorer.py), the scheduler
(engine/scheduler.py) and the distance utility (utils/haversine.py).

Modelling conventions:
- Python floats for durations, prices and scores are modelled as rationals,
  so that every arithmetic step of the source is exact and decidable.
- Calendar dates are modelled as integer day ordinals; the source only
  compares dates and steps them by one day at a time.
- Python attribute access that can raise AttributeError is modelled in the
  Except monad.  The Activity dataclass defines a field named duration,
  while scheduler.py and dayplan.py read an attribute named duration_hours
  that the dataclass does not define; that access is therefore modelled as
  a function returning Except.error.  Likewise, category is modelled as
  Option String (Python value None is representable), and the raw
  activity.category.lower() access errors on none.
- The scheduler consults haversine_distance_km only through comparisons
  and affine arithmetic on the returned distance; it is abstracted here as
  a rational-valued oracle parameter dist, universally quantified in every
  scheduler theorem, while the actual great-circle formula is embedded
  separately over the reals.
-/

/-- Python runtime errors that the embedded code can raise. -/
inductive PyErr where
  | attributeError (attr : String)
  deriving DecidableEq, Repr

/-- A (latitude, longitude) pair, as stored in Activity.location. -/
abbrev Loc := ℚ × ℚ

/-- The Activity dataclass of models/activity.py.  Its fields are name,
category, duration, price, location and description; dataclass equality is
field-wise equality.  category is Option String because the Python runtime
admits None there (scorer.py line 38 explicitly guards for it). -/
structure Activity where
  name : String
  category : Option String
  duration : ℚ
  price : ℚ
  location : Option Loc
  description : String
  deriving DecidableEq, Repr

/-- Access to the attribute duration_hours, which scheduler.py and
dayplan.py read.  The Activity dataclass defines no such attribute (its
field is called duration), so the access raises AttributeError. -/
def Activity.duration_hours (_ : Activity) : Except PyErr ℚ :=
  Except.error (PyErr.attributeError "duration_hours")

/-- The repaired accessor: what the rest of the repository (tests,
csv_reader, API layer) expects duration_hours to mean, namely the
duration field. -/
def Activity.duration_attr_fixed (a : Activity) : Except PyErr ℚ :=
  Except.ok a.duration

/-- ASCII lowercase conversion of one character, as Python str.lower acts
on the ASCII category and interest strings this repository uses. -/
def pyLowerChar (c : Char) : Char :=
  if c.isUpper then Char.ofNat (c.toNat + 32) else c

/-- Python str.lower for the ASCII category and interest strings. -/
def pyLower (s : String) : String := String.mk (s.data.map pyLowerChar)

/-- The raw access activity.category.lower() used at scorer.py lines 46,
61 and 115: raises AttributeError when category is None. -/
def Activity.category_lower (a : Activity) : Except PyErr String :=
  match a.category with
  | none => Except.error (PyErr.attributeError "lower")
  | some c => Except.ok (pyLower c)

/-- The None-safe normalisation (activity.category or "").lower() computed
at scorer.py line 38 and used for the already-scheduled counts at line 112. -/
def normCat (a : Activity) : String := pyLower (a.category.getD "")

/-- The UserPreferences dataclass of models/preferences.py. -/
structure UserPreferences where
  interests : List String
  budget : ℚ
  schedule_type : String
  min_hours_per_day : ℚ := 3
  max_hours_per_day : ℚ := 8
  prioritize_cost : Bool := false
  prioritize_distance : Bool := false
  include_opening_hours : Bool := false
  deriving DecidableEq, Repr

/-- The Trip dataclass of models/trip.py; dates are day ordinals and the
itinerary output field is kept by the caller, not read by the engine. -/
structure Trip where
  destination : String
  start_date : ℤ
  end_date : ℤ
  budget : ℚ
  interests : List String
  deriving DecidableEq, Repr

/-- Trip.trip_length: (end_date - start_date).days + 1. -/
def Trip.trip_length (t : Trip) : ℤ := t.end_date - t.start_date + 1

/-- The DayPlan dataclass of models/dayplan.py. -/
structure DayPlan where
  date : ℤ
  activities : List Activity
  deriving DecidableEq, Repr

/-- DayPlan.total_cost: sum(a.price for a in self.activities). -/
def DayPlan.total_cost (d : DayPlan) : ℚ :=
  (d.activities.map Activity.price).sum

/-- Running sum of a.duration_hours over a list of activities, as the
generator inside DayPlan.total_duration evaluates it. -/
def sum_duration_hours : List Activity → ℚ → Except PyErr ℚ
  | [], acc => Except.ok acc
  | a :: rest, acc => do
      let d ← a.duration_hours
      sum_duration_hours rest (acc + d)

/-- DayPlan.total_duration: sum(a.duration_hours for a in self.activities);
errors on the first element because Activity has no duration_hours. -/
def DayPlan.total_duration (d : DayPlan) : Except PyErr ℚ :=
  sum_duration_hours d.activities 0

/-- DayPlan.add_activity appends to the activities list. -/
def DayPlan.add_activity (d : DayPlan) (a : Activity) : DayPlan :=
  { d with activities := d.activities ++ [a] }

/-- The hardcoded complementary-category table of scorer.py lines 50-58;
dict.get with default [] for categories outside the table. -/
def complementary (c : String) : List String :=
  if c = "museum" then ["landmark", "tour"]
  else if c = "nature" then ["tour"]
  else if c = "food" then []
  else if c = "shopping" then []
  else if c = "landmark" then ["museum", "tour"]
  else if c = "tour" then ["museum", "landmark", "nature"]
  else if c = "entertainment" then []
  else []

/-- Term 1 of score_activity (lines 45-63): +40 when the lowercased
category is among the lowercased interests, otherwise +10 when any
interest maps to this category in the complementary table, else 0.  Reads
activity.category.lower() raw, so it errors on a None category. -/
def interest_term (a : Activity) (prefs : UserPreferences) : Except PyErr ℚ := do
  let catL ← a.category_lower
  if catL ∈ prefs.interests.map pyLower then
    pure 40
  else if prefs.interests.any (fun i => (complementary (pyLower i)).contains catL) then
    pure 10
  else
    pure 0

/-- Term 2 of score_activity (lines 65-89): the cost factor.  Note the
source compares and scales the raw activity.price; the normalised
max(price, 0) computed at line 40 is never used. -/
def cost_term (a : Activity) (prefs : UserPreferences) : ℚ :=
  if prefs.prioritize_cost then
    if a.price = 0 then 15
    else if a.price < 20 then 5
    else -(a.price * 0.8)
  else
    if a.price = 0 then 5
    else -(a.price * 0.15)

/-- Term 3 of score_activity (lines 91-104): schedule-type fit. -/
def schedule_term (a : Activity) (prefs : UserPreferences) : ℚ :=
  if prefs.schedule_type = "relaxed" then
    if a.duration ≤ 2 then 15
    else if a.duration ≥ 4 then -10
    else 0
  else if prefs.schedule_type = "packed" then
    if a.duration ≥ 2 then 10
    else 0
  else
    if 1.5 ≤ a.duration ∧ a.duration ≤ 3 then 10
    else 0

/-- How many already-scheduled activities share the given lowercased
category, counted with the None-safe normalisation of line 112. -/
def variety_count (already : List Activity) (catL : String) : ℕ :=
  (already.filter (fun s => normCat s == catL)).length

/-- The variety bonus or penalty as a function of the prior count
(lines 118-132). -/
def variety_bucket (count : ℕ) : ℚ :=
  if count = 0 then 10
  else if count = 1 then 0
  else if count = 2 then -10
  else -20

/-- Term 4 of score_activity (lines 106-132): reads the raw
activity.category.lower() at line 115 for the current category. -/
def variety_term (a : Activity) (already : List Activity) : Except PyErr ℚ := do
  let catL ← a.category_lower
  pure (variety_bucket (variety_count already catL))

/-- Term 5 of score_activity (lines 134-142): duration flexibility. -/
def duration_term (a : Activity) : ℚ :=
  if a.duration ≤ 1 then 8
  else if a.duration ≤ 2 then 5
  else if a.duration ≤ 3 then 2
  else 0

/-- score_activity of engine/scorer.py: the additive sum of the five
terms, in source order.  The already_scheduled argument defaults to [] in
the source ("already_scheduled or []"). -/
def score_activity (a : Activity) (prefs : UserPreferences)
    (already_scheduled : List Activity) : Except PyErr ℚ := do
  let t1 ← interest_term a prefs
  let t4 ← variety_term a already_scheduled
  pure (t1 + cost_term a prefs + schedule_term a prefs + t4 + duration_term a)

/-- The list comprehension at scheduler.py line 44: score every available
activity once, with the empty already-scheduled context, in input order. -/
def scoreList (prefs : UserPreferences) : List Activity → Except PyErr (List (ℚ × Activity))
  | [] => Except.ok []
  | a :: rest => do
      let s ← score_activity a prefs []
      let others ← scoreList prefs rest
      pure ((s, a) :: others)

/-- Stable insertion keeping the list sorted by descending score: a later
element is placed after every earlier element whose score is not strictly
smaller, which is the order Python list.sort(reverse=True, key=score)
produces. -/
def insert_desc (x : ℚ × Activity) : List (ℚ × Activity) → List (ℚ × Activity)
  | [] => [x]
  | y :: ys => if x.1 > y.1 then x :: y :: ys else y :: insert_desc x ys

/-- The stable descending sort of scheduler.py line 47. -/
def sortDesc (l : List (ℚ × Activity)) : List (ℚ × Activity) :=
  l.foldl (fun acc x => insert_desc x acc) []

/-- Locked-activity seeding, scheduler.py lines 63-70: the first locked
activity not yet used whose duration_hours fits the remaining hours is
selected (the loop breaks after one).  Returns the activity together with
the duration value the source read from it. -/
def seed_locked (durAttr : Activity → Except PyErr ℚ) :
    List Activity → List Activity → ℚ → Except PyErr (Option (Activity × ℚ))
  | [], _, _ => Except.ok none
  | l :: rest, used, hours_left =>
      if l ∈ used then seed_locked durAttr rest used hours_left
      else do
        let dh ← durAttr l
        if dh ≤ hours_left then pure (some (l, dh))
        else seed_locked durAttr rest used hours_left

/-- Anchor selection, scheduler.py lines 82-90: the first scored candidate
that is unused, fits the remaining hours and keeps the remaining budget
non-negative.  A candidate that fits but fails the budget check is skipped
and the scan continues. -/
def pick_anchor (durAttr : Activity → Except PyErr ℚ) :
    List (ℚ × Activity) → List Activity → ℚ → ℚ → Except PyErr (Option (Activity × ℚ))
  | [], _, _, _ => Except.ok none
  | (_, a) :: rest, used, hours_left, budget =>
      if a ∈ used then pick_anchor durAttr rest used hours_left budget
      else do
        let dh ← durAttr a
        if dh ≤ hours_left then
          if budget - a.price ≥ 0 then pure (some (a, dh))
          else pick_anchor durAttr rest used hours_left budget
        else pick_anchor durAttr rest used hours_left budget

/-- The proximity adjustment of scheduler.py lines 107-117: a bonus of
20 - 5*distance under 2 km, a flat -10 beyond 5 km, nothing otherwise,
and nothing when either location is missing. -/
def proximity_bonus (dist : Loc → Loc → ℚ) (lastLoc : Option Loc) (candLoc : Option Loc) : ℚ :=
  match lastLoc, candLoc with
  | some l1, some l2 =>
      let d := dist l1 l2
      if d < 2 then 20 - d * 5
      else if d > 5 then -10
      else 0
  | _, _ => 0

/-- The accumulator update of scheduler.py lines 119-121: replace the
held best candidate only on a strictly greater adjusted score (so, on
ties, the candidate encountered earlier in ranking order is kept). -/
def better_candidate (adjusted : ℚ) (a : Activity) (dh : ℚ) :
    Option (ℚ × Activity × ℚ) → Option (ℚ × Activity × ℚ)
  | none => some (adjusted, a, dh)
  | some (bs, b, bdh) =>
      if adjusted > bs then some (adjusted, a, dh) else some (bs, b, bdh)

/-- One scan of the fill loop, scheduler.py lines 97-121: over all scored
candidates, skip used ones, ones that do not fit the hours, and ones that
would drive the budget negative; keep the candidate with the strictly
greatest adjusted score (earlier candidates win ties). -/
def find_best_nearby (durAttr : Activity → Except PyErr ℚ) (dist : Loc → Loc → ℚ) :
    List (ℚ × Activity) → List Activity → ℚ → ℚ → Option Loc →
    Option (ℚ × Activity × ℚ) → Except PyErr (Option (ℚ × Activity × ℚ))
  | [], _, _, _, _, best => Except.ok best
  | (s, a) :: rest, used, hours_left, budget, lastLoc, best =>
      if a ∈ used then find_best_nearby durAttr dist rest used hours_left budget lastLoc best
      else do
        let dh ← durAttr a
        if dh > hours_left then
          find_best_nearby durAttr dist rest used hours_left budget lastLoc best
        else if budget - a.price < 0 then
          find_best_nearby durAttr dist rest used hours_left budget lastLoc best
        else
          find_best_nearby durAttr dist rest used hours_left budget lastLoc
            (better_candidate (s + proximity_bonus dist lastLoc a.location) a dh best)

/-- The fill loop, scheduler.py lines 93-131: while hours remain, add the
best nearby candidate, debiting hours and budget and moving the anchor to
its location; stop when no candidate qualifies.  Every productive
iteration consumes one unused candidate, so a fuel of one more than the
candidate count is never exhausted. -/
def fill_day (durAttr : Activity → Except PyErr ℚ) (dist : Loc → Loc → ℚ)
    (scored : List (ℚ × Activity)) :
    ℕ → DayPlan → List Activity → ℚ → ℚ → Option Loc →
    Except PyErr (DayPlan × List Activity × ℚ)
  | 0, day, used, _, budget, _ => Except.ok (day, used, budget)
  | Nat.succ fuel, day, used, hours_left, budget, lastLoc =>
      if hours_left > 0 then do
        let best ← find_best_nearby durAttr dist scored used hours_left budget lastLoc none
        match best with
        | none => pure (day, used, budget)
        | some (_, a, dh) =>
            fill_day durAttr dist scored fuel (day.add_activity a) (a :: used)
              (hours_left - dh) (budget - a.price) a.location
      else Except.ok (day, used, budget)

/-- One pass of the day loop body, scheduler.py lines 58-134: seed at most
one locked activity, otherwise pick the highest-scoring anchor that fits,
then run the proximity-biased fill loop. -/
def schedule_day (durAttr : Activity → Except PyErr ℚ) (dist : Loc → Loc → ℚ)
    (scored : List (ℚ × Activity)) (locked : List Activity) (prefs : UserPreferences)
    (date : ℤ) (used : List Activity) (budget : ℚ) :
    Except PyErr (DayPlan × List Activity × ℚ) := do
  let seeded ← seed_locked durAttr locked used prefs.max_hours_per_day
  match seeded with
  | some (l, dh) =>
      fill_day durAttr dist scored (scored.length + 1) (DayPlan.mk date [l]) (l :: used)
        (prefs.max_hours_per_day - dh) (budget - l.price) l.location
  | none => do
      let anchor ← pick_anchor durAttr scored used prefs.max_hours_per_day budget
      match anchor with
      | some (a, dh) =>
          fill_day durAttr dist scored (scored.length + 1) (DayPlan.mk date [a]) (a :: used)
            (prefs.max_hours_per_day - dh) (budget - a.price) a.location
      | none =>
          fill_day durAttr dist scored (scored.length + 1) (DayPlan.mk date []) used
            prefs.max_hours_per_day budget none

/-- The while loop over calendar days, scheduler.py lines 58-137, running
once per day of the inclusive range and threading the used set and the
remaining budget through the whole trip. -/
def day_loop (durAttr : Activity → Except PyErr ℚ) (dist : Loc → Loc → ℚ)
    (scored : List (ℚ × Activity)) (locked : List Activity) (prefs : UserPreferences) :
    ℕ → ℤ → List Activity → ℚ → Except PyErr (List DayPlan)
  | 0, _, _, _ => Except.ok []
  | Nat.succ n, date, used, budget => do
      let step ← schedule_day durAttr dist scored locked prefs date used budget
      let rest ← day_loop durAttr dist scored locked prefs n (date + 1) step.2.1 step.2.2
      pure (step.1 :: rest)

/-- create_itinerary of engine/scheduler.py, generic in the accessor used
for the duration_hours attribute reads.  The locked_activities argument
defaults to None in the source and is normalised to a list. -/
def create_itinerary_gen (durAttr : Activity → Except PyErr ℚ) (dist : Loc → Loc → ℚ)
    (trip : Trip) (activities : List Activity) (prefs : UserPreferences)
    (locked_activities : List Activity) : Except PyErr (List DayPlan) := do
  let scored ← scoreList prefs activities
  let sorted := sortDesc scored
  day_loop durAttr dist sorted locked_activities prefs
    (trip.end_date - trip.start_date + 1).toNat trip.start_date [] trip.budget

/-- create_itinerary as committed: duration_hours reads hit the attribute
the Activity dataclass does not define. -/
def create_itinerary (dist : Loc → Loc → ℚ) (trip : Trip) (activities : List Activity)
    (prefs : UserPreferences) (locked_activities : List Activity) : Except PyErr (List DayPlan) :=
  create_itinerary_gen Activity.duration_hours dist trip activities prefs locked_activities

/-- create_itinerary with the duration_hours slip repaired to the duration
field, which is what the tests in src/tests/test_scheduler.py and every
Activity supplier in the repository assume. -/
def create_itinerary_fixed (dist : Loc → Loc → ℚ) (trip : Trip) (activities : List Activity)
    (prefs : UserPreferences) (locked_activities : List Activity) : Except PyErr (List DayPlan) :=
  create_itinerary_gen Activity.duration_attr_fixed dist trip activities prefs locked_activities

/-- math.radians: convert decimal degrees to radians. -/
noncomputable def radians (x : ℝ) : ℝ := x * Real.pi / 180

/-- math.atan2 over the reals, by its standard piecewise definition
(quadrant-aware arctangent; atan2 0 0 = 0 as in Python). -/
noncomputable def atan2 (y x : ℝ) : ℝ :=
  if 0 < x then Real.arctan (y / x)
  else if x < 0 then
    (if 0 ≤ y then Real.arctan (y / x) + Real.pi else Real.arctan (y / x) - Real.pi)
  else
    (if 0 < y then Real.pi / 2 else if y < 0 then -(Real.pi / 2) else 0)

/-- The intermediate h of utils/haversine.py line 41:
sin(dlat/2)^2 + cos(rlat1)*cos(rlat2)*sin(dlon/2)^2. -/
noncomputable def haversine_h (a b : ℝ × ℝ) : ℝ :=
  Real.sin ((radians b.1 - radians a.1) / 2) ^ 2 +
    Real.cos (radians a.1) * Real.cos (radians b.1) *
      Real.sin ((radians b.2 - radians a.2) / 2) ^ 2

/-- haversine_distance_km of utils/haversine.py: inputs are (lat, lon)
pairs in decimal degrees, Earth radius 6371.0 km,
distance = 2 * R * atan2(sqrt h, sqrt (1 - h)). -/
noncomputable def haversine_distance_km (a b : ℝ × ℝ) : ℝ :=
  2 * 6371 * atan2 (Real.sqrt (haversine_h a b)) (Real.sqrt (1 - haversine_h a b))


/-! ### Concrete sample data, mirroring the fixtures of the test suite -/

/-- A concrete instantiation of the distance oracle for closed theorems;
the committed scheduler errors before any distance is consulted. -/
def dist0 : Loc → Loc → ℚ := fun _ _ => 0

/-- The balanced_prefs fixture of test_scheduler.py. -/
def prefsT : UserPreferences :=
  { interests := ["museum", "food"], budget := 500, schedule_type := "balanced" }

/-- The first sample activity of the test fixtures. -/
def actM : Activity :=
  { name := "Museum A", category := some "museum", duration := 2, price := 20,
    location := some (40, -74), description := "Art museum" }

/-- The basic_trip fixture: a three-day trip. -/
def tripT : Trip :=
  { destination := "New York", start_date := 0, end_date := 2, budget := 500,
    interests := ["museum", "food"] }

/-! ### Reduction helpers for the Except monad -/

/-- Bind on a successful Except computation. -/
@[simp] theorem ebind_ok {ε α β : Type} (x : α) (f : α → Except ε β) :
    (Except.ok x >>= f) = f x := rfl

/-- Bind on a failed Except computation propagates the error. -/
@[simp] theorem ebind_error {ε α β : Type} (e : ε) (f : α → Except ε β) :
    ((Except.error e : Except ε α) >>= f) = Except.error e := rfl

/-- Pure in the Except monad is Except.ok. -/
@[simp] theorem epure_eq {ε α : Type} (x : α) : (pure x : Except ε α) = Except.ok x := rfl

/-! ### Structural lemmas about the committed scheduler -/

/-- Inserting into the descending-sorted list never yields the empty list. -/
theorem insert_desc_ne_nil (x : ℚ × Activity) (l : List (ℚ × Activity)) :
    insert_desc x l ≠ [] := by
  cases l with
  | nil => simp [insert_desc]
  | cons y ys =>
      simp only [insert_desc]
      split <;> simp

/-- Folding stable insertions preserves nonemptiness. -/
theorem foldl_insert_ne_nil (l : List (ℚ × Activity)) (acc : List (ℚ × Activity))
    (h : acc ≠ [] ∨ l ≠ []) :
    l.foldl (fun acc x => insert_desc x acc) acc ≠ [] := by
  induction l generalizing acc with
  | nil =>
      rcases h with h | h
      · simpa using h
      · exact absurd rfl h
  | cons x xs ih =>
      simp only [List.foldl_cons]
      exact ih (insert_desc x acc) (Or.inl (insert_desc_ne_nil x acc))

/-- The stable descending sort of a nonempty list is nonempty. -/
theorem sortDesc_ne_nil (l : List (ℚ × Activity)) (h : l ≠ []) : sortDesc l ≠ [] :=
  foldl_insert_ne_nil l [] (Or.inr h)

/-- The locked-seeding scan raises AttributeError at the first locked
activity that is not already used, because it reads duration_hours. -/
theorem seed_locked_dh_error (l : Activity) (rest used : List Activity) (h : ℚ)
    (hl : l ∉ used) :
    seed_locked Activity.duration_hours (l :: rest) used h =
      Except.error (PyErr.attributeError "duration_hours") := by
  simp [seed_locked, hl, Activity.duration_hours]

/-- The anchor scan raises AttributeError at the first unused candidate,
because it reads duration_hours. -/
theorem pick_anchor_dh_error (s : ℚ) (a : Activity) (rest : List (ℚ × Activity))
    (used : List Activity) (h b : ℚ) (ha : a ∉ used) :
    pick_anchor Activity.duration_hours ((s, a) :: rest) used h b =
      Except.error (PyErr.attributeError "duration_hours") := by
  simp [pick_anchor, ha, Activity.duration_hours]

/-- A day pass over a nonempty locked list errors when its head is unused. -/
theorem schedule_day_locked_error (dist : Loc → Loc → ℚ) (scored : List (ℚ × Activity))
    (l : Activity) (ls : List Activity) (prefs : UserPreferences) (date : ℤ)
    (used : List Activity) (budget : ℚ) (hl : l ∉ used) :
    schedule_day Activity.duration_hours dist scored (l :: ls) prefs date used budget =
      Except.error (PyErr.attributeError "duration_hours") := by
  simp [schedule_day, seed_locked_dh_error l ls used prefs.max_hours_per_day hl]

/-- A day pass with no locked activities and a nonempty candidate ranking
errors when the first ranked candidate is unused. -/
theorem schedule_day_anchor_error (dist : Loc → Loc → ℚ) (s : ℚ) (a : Activity)
    (rest : List (ℚ × Activity)) (prefs : UserPreferences) (date : ℤ)
    (used : List Activity) (budget : ℚ) (ha : a ∉ used) :
    schedule_day Activity.duration_hours dist ((s, a) :: rest) [] prefs date used budget =
      Except.error (PyErr.attributeError "duration_hours") := by
  simp [schedule_day, seed_locked,
    pick_anchor_dh_error s a rest used prefs.max_hours_per_day budget ha]

/-- The interest term evaluates successfully on any activity whose
category is an actual string. -/
theorem interest_term_ok (a : Activity) (prefs : UserPreferences) (c : String)
    (hc : a.category = some c) : ∃ q, interest_term a prefs = Except.ok q := by
  simp only [interest_term, Activity.category_lower, hc, ebind_ok]
  split
  · exact ⟨_, rfl⟩
  · split <;> exact ⟨_, rfl⟩

/-- The variety term evaluates successfully on any activity whose
category is an actual string. -/
theorem variety_term_ok (a : Activity) (already : List Activity) (c : String)
    (hc : a.category = some c) : ∃ q, variety_term a already = Except.ok q := by
  simp [variety_term, Activity.category_lower, hc]

/-- score_activity returns a value on any activity whose category is an
actual string: its only fallible steps are the raw category reads. -/
theorem score_activity_ok (a : Activity) (prefs : UserPreferences) (ctx : List Activity)
    (c : String) (hc : a.category = some c) :
    ∃ q, score_activity a prefs ctx = Except.ok q := by
  obtain ⟨q1, h1⟩ := interest_term_ok a prefs c hc
  obtain ⟨q4, h4⟩ := variety_term_ok a ctx c hc
  refine ⟨q1 + cost_term a prefs + schedule_term a prefs + q4 + duration_term a, ?_⟩
  simp [score_activity, h1, h4]

/-- Scoring a list of activities with actual string categories succeeds
and pairs each activity, in order, with its score. -/
theorem scoreList_ok (prefs : UserPreferences) (l : List Activity)
    (hcat : ∀ a ∈ l, a.category ≠ none) :
    ∃ res, scoreList prefs l = Except.ok res ∧ res.map Prod.snd = l := by
  induction l with
  | nil => exact ⟨[], rfl, rfl⟩
  | cons a rest ih =>
      have ha : a.category ≠ none := hcat a (List.mem_cons_self a rest)
      obtain ⟨c, hc⟩ := Option.ne_none_iff_exists'.mp ha
      obtain ⟨q, hq⟩ := score_activity_ok a prefs [] c hc
      obtain ⟨res, hres, hmap⟩ := ih (fun x hx => hcat x (List.mem_cons_of_mem a hx))
      exact ⟨(q, a) :: res, by simp [scoreList, hq, hres], by simp [hmap]⟩

/-! ### Claim theorems -/

/-- C5: on the committed model type (fields name, category, duration,
price, location, description), DayPlan.total_duration never returns a
value on a nonempty day plan, because it reads the attribute
duration_hours that Activity does not define; create_itinerary reads the
same nonexistent attribute in its eligibility checks, so for a valid trip
window it fails with AttributeError whenever activities or
locked_activities is nonempty; the scorer, in contrast, reads the defined
duration field and returns a value on every activity with a string
category. -/
theorem C5_duration_hours_attribute_bug :
    (∀ d : DayPlan, d.activities ≠ [] →
        d.total_duration = Except.error (PyErr.attributeError "duration_hours"))
    ∧ (∀ (dist : Loc → Loc → ℚ) (trip : Trip) (acts locked : List Activity)
          (prefs : UserPreferences),
        trip.start_date ≤ trip.end_date →
        (∀ a ∈ acts, a.category ≠ none) →
        acts ≠ [] ∨ locked ≠ [] →
        create_itinerary dist trip acts prefs locked =
          Except.error (PyErr.attributeError "duration_hours"))
    ∧ (∀ (a : Activity) (prefs : UserPreferences) (ctx : List Activity),
        a.category ≠ none → ∃ q, score_activity a prefs ctx = Except.ok q) := by
  refine ⟨?_, ?_, ?_⟩
  · intro d hd
    cases hact : d.activities with
    | nil => exact absurd hact hd
    | cons a rest =>
        simp [DayPlan.total_duration, hact, sum_duration_hours, Activity.duration_hours]
  · intro dist trip acts locked prefs hle hcat hne
    obtain ⟨res, hres, hmap⟩ := scoreList_ok prefs acts hcat
    obtain ⟨n, hn⟩ : ∃ n, (trip.end_date - trip.start_date + 1).toNat = n + 1 := by
      have h0 : (trip.end_date - trip.start_date + 1).toNat ≠ 0 := by omega
      exact Nat.exists_eq_succ_of_ne_zero h0
    cases hlock : locked with
    | cons l ls =>
        have hsd := schedule_day_locked_error dist (sortDesc res) l ls prefs
          trip.start_date [] trip.budget (List.not_mem_nil l)
        simp [create_itinerary, create_itinerary_gen, hres, hn, day_loop, hsd]
    | nil =>
        have hacts : acts ≠ [] := by
          rcases hne with h | h
          · exact h
          · exact absurd hlock h
        have hres_ne : res ≠ [] := by
          intro h
          apply hacts
          rw [← hmap, h, List.map_nil]
        obtain ⟨y, ys, hsort⟩ := List.exists_cons_of_ne_nil (sortDesc_ne_nil res hres_ne)
        obtain ⟨s, a⟩ := y
        have hsd := schedule_day_anchor_error dist s a ys prefs
          trip.start_date [] trip.budget (List.not_mem_nil a)
        rw [← hsort] at hsd
        simp [create_itinerary, create_itinerary_gen, hres, hn, day_loop, hsd]
  · intro a prefs ctx ha
    obtain ⟨c, hc⟩ := Option.ne_none_iff_exists'.mp ha
    exact score_activity_ok a prefs ctx c hc

/-- Witness for C5 at concrete inputs: a one-activity day plan, the
three-day sample trip with one candidate activity, and the sample
activity under the sample preferences. -/
theorem C5_duration_hours_attribute_bug_witness :
    DayPlan.total_duration (DayPlan.mk 0 [actM]) =
        Except.error (PyErr.attributeError "duration_hours")
      ∧ create_itinerary dist0 tripT [actM] prefsT [] =
        Except.error (PyErr.attributeError "duration_hours")
      ∧ ∃ q, score_activity actM prefsT [] = Except.ok q :=
  ⟨C5_duration_hours_attribute_bug.1 (DayPlan.mk 0 [actM]) (by simp),
   C5_duration_hours_attribute_bug.2.1 dist0 tripT [actM] [] prefsT
     (by decide) (by simp [actM]) (Or.inl (by simp)),
   C5_duration_hours_attribute_bug.2.2 actM prefsT [] (by simp [actM])⟩

/-- The Park sample activity of the test fixtures. -/
def actPark : Activity :=
  { name := "Park", category := some "nature", duration := 1, price := 0,
    location := some (41, -74), description := "City park" }

/-- The Restaurant sample activity of the test fixtures. -/
def actR : Activity :=
  { name := "Restaurant", category := some "food", duration := 1.5, price := 30,
    location := some (41, -73), description := "Fine dining" }

/-- Preferences of the locked-activity scenario of
test_scheduler_prioritizes_locked_activities. -/
def prefs4 : UserPreferences :=
  { interests := ["tour"], budget := 250, schedule_type := "balanced",
    max_hours_per_day := 9 }

/-- A trip whose budget is below the locked activity price. -/
def trip4 : Trip :=
  { destination := "City", start_date := 0, end_date := 2, budget := 100,
    interests := ["tour"] }

/-- The expensive locked tour: its duration 8 fits max_hours_per_day 9,
its price 200 exceeds the trip budget 100. -/
def actExp : Activity :=
  { name := "Expensive Tour", category := some "tour", duration := 8, price := 200,
    location := none, description := "Tour" }

/-- The low-budget preferences of test_scheduler_respects_budget. -/
def prefs6 : UserPreferences :=
  { interests := ["museum"], budget := 50, schedule_type := "balanced",
    prioritize_cost := true }

/-- The low-budget trip of test_scheduler_respects_budget. -/
def trip6 : Trip :=
  { destination := "New York", start_date := 0, end_date := 2, budget := 50,
    interests := ["museum"] }

/-- The trip of test_scheduler_with_all_expensive_activities. -/
def trip9 : Trip :=
  { destination := "City", start_date := 0, end_date := 2, budget := 100,
    interests := ["tour"] }

/-- Preferences for the all-too-expensive scenario. -/
def prefs9 : UserPreferences :=
  { interests := ["tour"], budget := 100, schedule_type := "balanced" }

/-- First overpriced candidate. -/
def actE1 : Activity :=
  { name := "Expensive 0", category := some "tour", duration := 2, price := 200,
    location := none, description := "Tour" }

/-- Second overpriced candidate. -/
def actE2 : Activity :=
  { name := "Expensive 1", category := some "tour", duration := 2, price := 200,
    location := none, description := "Tour" }

/-- An activity whose category is Python None. -/
def actNone : Activity :=
  { name := "Mystery", category := none, duration := 1, price := 5,
    location := none, description := "" }

/-- C1 (code evaluated at the failing input): on the three-day sample trip
with a nonempty candidate list, the committed create_itinerary does not
return one DayPlan per calendar day; it raises AttributeError at the first
duration_hours eligibility read, as also witnessed by the failing repo
test test_scheduler_creates_correct_number_of_days. -/
theorem C1_day_count_failing_eval :
    create_itinerary dist0 tripT [actM, actPark] prefsT [] =
      Except.error (PyErr.attributeError "duration_hours") := by
  with_unfolding_all rfl

/-- C2 (code evaluated at the failing input): on an input that even
contains two value-identical activities, the committed create_itinerary
returns no itinerary at all whose days could be checked for duplicates;
it raises AttributeError, as also witnessed by the failing repo test
test_scheduler_no_duplicate_activities. -/
theorem C2_no_duplicates_failing_eval :
    create_itinerary dist0 tripT [actM, actM] prefsT [] =
      Except.error (PyErr.attributeError "duration_hours") := by
  with_unfolding_all rfl

/-- C3 (code evaluated at the failing input): the committed
create_itinerary never reaches a state whose day plans could satisfy the
hour ceiling; the duration check itself reads the nonexistent
duration_hours and raises, as also witnessed by the failing repo test
test_scheduler_respects_daily_hour_limit. -/
theorem C3_hour_ceiling_failing_eval :
    create_itinerary dist0 tripT [actPark] prefsT [] =
      Except.error (PyErr.attributeError "duration_hours") := by
  with_unfolding_all rfl

/-- C4 (code evaluated at the failing input): a locked activity whose
duration 8 fits max_hours_per_day 9 and whose price 200 exceeds the trip
budget 100 never appears in any result: the locked-seeding step raises
AttributeError at its duration_hours read, as also witnessed by the
failing repo test test_scheduler_prioritizes_locked_activities. -/
theorem C4_locked_seeding_failing_eval :
    create_itinerary dist0 trip4 [actExp] prefs4 [actExp] =
      Except.error (PyErr.attributeError "duration_hours") := by
  with_unfolding_all rfl

/-- C6 (code evaluated at the failing input): with no locked activities
and a non-negative budget, the committed create_itinerary produces no day
plans whose total cost could be compared to the budget; it raises
AttributeError, as also witnessed by the failing repo test
test_scheduler_respects_budget. -/
theorem C6_budget_failing_eval :
    create_itinerary dist0 trip6 [actM, actR] prefs6 [] =
      Except.error (PyErr.attributeError "duration_hours") := by
  with_unfolding_all rfl

/-- C9 (code evaluated at the empty and the failing input): with an empty
candidate list the committed create_itinerary indeed returns the
full-length sequence of empty day plans, but with nonempty candidates all
priced above the budget it raises AttributeError instead of returning
empty day plans, as also witnessed by the failing repo test
test_scheduler_with_all_expensive_activities. -/
theorem C9_empty_and_all_expensive_eval :
    create_itinerary dist0 tripT [] prefsT [] =
        Except.ok [DayPlan.mk 0 [], DayPlan.mk 1 [], DayPlan.mk 2 []]
      ∧ create_itinerary dist0 trip9 [actE1, actE2] prefs9 [] =
        Except.error (PyErr.attributeError "duration_hours") := by
  constructor
  · rfl
  · with_unfolding_all rfl

/-- C8 (code evaluated at the failing input): score_activity raises
AttributeError on an activity whose category is None, because lines 46,
61 and 115 of scorer.py read activity.category.lower() raw instead of the
None-safe normalisation computed at line 38; an empty-string category, in
contrast, scores fine and matches no interest and no complementary entry. -/
theorem C8_none_category_failing_eval :
    score_activity actNone prefsT [] = Except.error (PyErr.attributeError "lower")
      ∧ score_activity { actNone with category := some "" } prefsT [] =
        Except.ok 17.25 := by
  constructor
  · rfl
  · with_unfolding_all rfl

/-- Preferences for the interest-dominance scenario: one interest. -/
def prefs7 : UserPreferences :=
  { interests := ["museum"], budget := 500, schedule_type := "balanced" }

/-- A museum activity already scheduled three times over. -/
def mPrior : Activity :=
  { name := "Prior Museum", category := some "museum", duration := 2, price := 20,
    location := none, description := "" }

/-- A context in which the museum category already occurs three times. -/
def ctx7 : List Activity := [mPrior, mPrior, mPrior]

/-- The matching activity of the interest-dominance scenario. -/
def actA7 : Activity :=
  { name := "Gallery", category := some "museum", duration := 2, price := 0,
    location := none, description := "" }

/-- The non-matching twin: identical in every field except category. -/
def actB7 : Activity :=
  { name := "Gallery", category := some "shopping", duration := 2, price := 0,
    location := none, description := "" }

/-- C7 counterexample: two activities identical except in category, one
matching the single interest and the other not, in a context that already
holds three activities of the matching category; the matching activity
scores 40, the non-matching one 30, a gap of only 10 < 30, because the
variety penalty (-20 against +10) also differs between the two. -/
theorem C7_interest_dominance_counterexample :
    pyLower "museum" ∈ prefs7.interests.map pyLower
      ∧ pyLower "shopping" ∉ prefs7.interests.map pyLower
      ∧ score_activity actA7 prefs7 ctx7 = Except.ok 40
      ∧ score_activity actB7 prefs7 ctx7 = Except.ok 30
      ∧ ¬ ((30 : ℚ) + 30 ≤ 40) := by
  refine ⟨by decide, by decide, ?_, ?_, by norm_num⟩
  · with_unfolding_all rfl
  · with_unfolding_all rfl

/-- C7 amended: for two activities identical in every field except
category, where one category matches the interests case-insensitively and
the other does not, the matching activity scores at least 30 points more
PROVIDED the two categories occur equally often among the
already-scheduled activities (for instance in the empty context); without
that proviso the variety term can shrink the gap below 30. -/
theorem C7_interest_dominance_amended (prefs : UserPreferences) (ctx : List Activity)
    (nm : String) (dur pr : ℚ) (loc : Option Loc) (ds : String) (c1 c2 : String)
    (h1 : pyLower c1 ∈ prefs.interests.map pyLower)
    (h2 : pyLower c2 ∉ prefs.interests.map pyLower)
    (h3 : variety_count ctx (pyLower c1) = variety_count ctx (pyLower c2)) :
    ∃ s1 s2,
      score_activity ⟨nm, some c1, dur, pr, loc, ds⟩ prefs ctx = Except.ok s1
        ∧ score_activity ⟨nm, some c2, dur, pr, loc, ds⟩ prefs ctx = Except.ok s2
        ∧ s2 + 30 ≤ s1 := by
  have hiA : interest_term ⟨nm, some c1, dur, pr, loc, ds⟩ prefs = Except.ok 40 := by
    simp only [interest_term, Activity.category_lower, ebind_ok]
    rw [if_pos h1]
    rfl
  obtain ⟨ib, hiB, hible⟩ : ∃ ib, interest_term ⟨nm, some c2, dur, pr, loc, ds⟩ prefs =
      Except.ok ib ∧ ib ≤ 10 := by
    simp only [interest_term, Activity.category_lower, ebind_ok]
    rw [if_neg h2]
    split
    · exact ⟨10, rfl, by norm_num⟩
    · exact ⟨0, rfl, by norm_num⟩
  have hvA : variety_term ⟨nm, some c1, dur, pr, loc, ds⟩ ctx =
      Except.ok (variety_bucket (variety_count ctx (pyLower c1))) := by
    simp [variety_term, Activity.category_lower]
  have hvB : variety_term ⟨nm, some c2, dur, pr, loc, ds⟩ ctx =
      Except.ok (variety_bucket (variety_count ctx (pyLower c1))) := by
    rw [h3]
    simp [variety_term, Activity.category_lower]
  refine ⟨40 + cost_term ⟨nm, some c1, dur, pr, loc, ds⟩ prefs
      + schedule_term ⟨nm, some c1, dur, pr, loc, ds⟩ prefs
      + variety_bucket (variety_count ctx (pyLower c1))
      + duration_term ⟨nm, some c1, dur, pr, loc, ds⟩,
    ib + cost_term ⟨nm, some c1, dur, pr, loc, ds⟩ prefs
      + schedule_term ⟨nm, some c1, dur, pr, loc, ds⟩ prefs
      + variety_bucket (variety_count ctx (pyLower c1))
      + duration_term ⟨nm, some c1, dur, pr, loc, ds⟩, ?_, ?_, ?_⟩
  · simp [score_activity, hiA, hvA]
  · have hc : cost_term ⟨nm, some c2, dur, pr, loc, ds⟩ prefs
        = cost_term ⟨nm, some c1, dur, pr, loc, ds⟩ prefs := rfl
    have hs : schedule_term ⟨nm, some c2, dur, pr, loc, ds⟩ prefs
        = schedule_term ⟨nm, some c1, dur, pr, loc, ds⟩ prefs := rfl
    have hd : duration_term ⟨nm, some c2, dur, pr, loc, ds⟩
        = duration_term ⟨nm, some c1, dur, pr, loc, ds⟩ := rfl
    simp [score_activity, hiB, hvB, hc, hs, hd]
  · linarith

/-- Witness for the amended C7 at a concrete input: categories Museum and
shopping under the single interest museum, in the empty context. -/
theorem C7_interest_dominance_amended_witness :
    ∃ s1 s2,
      score_activity ⟨"Gallery", some "Museum", 2, 0, none, ""⟩ prefs7 [] = Except.ok s1
        ∧ score_activity ⟨"Gallery", some "shopping", 2, 0, none, ""⟩ prefs7 [] = Except.ok s2
        ∧ s2 + 30 ≤ s1 :=
  C7_interest_dominance_amended prefs7 [] "Gallery" 2 0 none "" "Museum" "shopping"
    (by decide) (by decide) rfl

/-- The square of the sine of half a difference is symmetric in the
difference. -/
theorem sin_half_sq_symm (x y : ℝ) :
    Real.sin ((x - y) / 2) ^ 2 = Real.sin ((y - x) / 2) ^ 2 := by
  rw [show (x - y) / 2 = -((y - x) / 2) by ring, Real.sin_neg]
  ring

/-- The haversine intermediate h is symmetric in its two points. -/
theorem haversine_h_symm (a b : ℝ × ℝ) : haversine_h a b = haversine_h b a := by
  unfold haversine_h
  rw [sin_half_sq_symm (radians b.1) (radians a.1),
    sin_half_sq_symm (radians b.2) (radians a.2)]
  ring

/-- The haversine intermediate h vanishes on identical points. -/
theorem haversine_h_self (a : ℝ × ℝ) : haversine_h a a = 0 := by
  simp [haversine_h]

/-- C10: haversine_distance_km is exactly symmetric, and evaluates to
exactly zero on identical points (h = 0, so the formula reduces to
2 * R * atan2 0 1 = 0). -/
theorem C10_haversine_symmetry_and_identity :
    (∀ a b : ℝ × ℝ, haversine_distance_km a b = haversine_distance_km b a)
      ∧ (∀ a : ℝ × ℝ, haversine_distance_km a a = 0) := by
  constructor
  · intro a b
    unfold haversine_distance_km
    rw [haversine_h_symm]
  · intro a
    unfold haversine_distance_km
    rw [haversine_h_self]
    norm_num [atan2, Real.sqrt_zero, Real.sqrt_one, Real.arctan_zero]

/-! ### The repaired scheduler satisfies the intended properties

The following theorems show that the scheduling invariants the failing
claims describe do hold of create_itinerary_fixed, the same algorithm
with the duration_hours reads repaired to the duration field. -/

/-- Invariant carried by the fill-loop accumulator: any held candidate is
unused, carries its own duration, fits the remaining hours and keeps the
remaining budget non-negative. -/
def candidate_ok (used : List Activity) (h b : ℚ) (acc : Option (ℚ × Activity × ℚ)) : Prop :=
  ∀ s a dh, acc = some (s, a, dh) →
    a ∉ used ∧ dh = a.duration ∧ dh ≤ h ∧ 0 ≤ b - a.price

/-- Updating the accumulator with a candidate that passed the guards
preserves the invariant. -/
theorem better_candidate_ok (u : List Activity) (h b adj dh : ℚ) (a : Activity)
    (acc : Option (ℚ × Activity × ℚ)) (hacc : candidate_ok u h b acc)
    (ha : a ∉ u) (hdh : dh = a.duration) (hle : dh ≤ h) (hb : 0 ≤ b - a.price) :
    candidate_ok u h b (better_candidate adj a dh acc) := by
  intro s x xdh hx
  cases acc with
  | none =>
      simp only [better_candidate, Option.some.injEq, Prod.mk.injEq] at hx
      obtain ⟨-, rfl, rfl⟩ := hx
      exact ⟨ha, hdh, hle, hb⟩
  | some t =>
      obtain ⟨bs, bact, bdh⟩ := t
      simp only [better_candidate] at hx
      split at hx
      · simp only [Option.some.injEq, Prod.mk.injEq] at hx
        obtain ⟨-, rfl, rfl⟩ := hx
        exact ⟨ha, hdh, hle, hb⟩
      · exact hacc s x xdh hx

/-- The fill-loop scan preserves the accumulator invariant: every
candidate it can return passed the used, hours and budget guards. -/
theorem find_best_nearby_fixed_ok (dist : Loc → Loc → ℚ) (scored : List (ℚ × Activity)) :
    ∀ (used : List Activity) (h b : ℚ) (loc : Option Loc)
      (acc res : Option (ℚ × Activity × ℚ)),
    candidate_ok used h b acc →
    find_best_nearby Activity.duration_attr_fixed dist scored used h b loc acc =
      Except.ok res →
    candidate_ok used h b res := by
  induction scored with
  | nil =>
      intro used h b loc acc res hacc heq
      simp only [find_best_nearby, Except.ok.injEq] at heq
      exact heq ▸ hacc
  | cons p rest ih =>
      obtain ⟨s, a⟩ := p
      intro used h b loc acc res hacc heq
      simp only [find_best_nearby] at heq
      by_cases hu : a ∈ used
      · rw [if_pos hu] at heq
        exact ih used h b loc acc res hacc heq
      · rw [if_neg hu] at heq
        simp only [Activity.duration_attr_fixed, ebind_ok] at heq
        by_cases hd : a.duration > h
        · rw [if_pos hd] at heq
          exact ih used h b loc acc res hacc heq
        · rw [if_neg hd] at heq
          by_cases hb : b - a.price < 0
          · rw [if_pos hb] at heq
            exact ih used h b loc acc res hacc heq
          · rw [if_neg hb] at heq
            refine ih used h b loc _ res ?_ heq
            exact better_candidate_ok used h b _ a.duration a acc hacc hu rfl
              (not_lt.mp hd) (le_of_not_lt (by simpa using hb))

/-- Specification of the repaired fill loop: it appends some block of new
activities to the day, pushes exactly those onto the used list, never
picks an already-used activity twice, keeps the added durations within
the available hours, debits the budget by the added prices, and leaves
the budget non-negative whenever it adds anything. -/
theorem fill_day_fixed_spec (dist : Loc → Loc → ℚ) (scored : List (ℚ × Activity)) :
    ∀ (fuel : ℕ) (day : DayPlan) (used : List Activity) (h b : ℚ) (loc : Option Loc)
      (day' : DayPlan) (used' : List Activity) (b' : ℚ),
    fill_day Activity.duration_attr_fixed dist scored fuel day used h b loc =
      Except.ok (day', used', b') →
    ∃ new : List Activity,
      day'.date = day.date ∧
      day'.activities = day.activities ++ new ∧
      used' = new.reverse ++ used ∧
      (∀ x ∈ new, x ∉ used) ∧
      new.Nodup ∧
      (new.map Activity.duration).sum ≤ max h 0 ∧
      b' = b - (new.map Activity.price).sum ∧
      (new = [] ∨ 0 ≤ b') := by
  intro fuel
  induction fuel with
  | zero =>
      intro day used h b loc day' used' b' heq
      simp only [fill_day, Except.ok.injEq, Prod.mk.injEq] at heq
      obtain ⟨h1, h2, h3⟩ := heq
      subst h1; subst h2; subst h3
      exact ⟨[], rfl, by simp, by simp, by simp, List.nodup_nil,
        by simp, by simp, Or.inl rfl⟩
  | succ n ih =>
      intro day used h b loc day' used' b' heq
      simp only [fill_day] at heq
      by_cases hh : h > 0
      · rw [if_pos hh] at heq
        cases hfb : find_best_nearby Activity.duration_attr_fixed dist scored used h b loc
            none with
        | error e =>
            rw [hfb] at heq
            simp at heq
        | ok best =>
            rw [hfb] at heq
            simp only [ebind_ok] at heq
            cases best with
            | none =>
                simp only [epure_eq, Except.ok.injEq, Prod.mk.injEq] at heq
                obtain ⟨h1, h2, h3⟩ := heq
                subst h1; subst h2; subst h3
                exact ⟨[], rfl, by simp, by simp, by simp, List.nodup_nil,
                  by simp, by simp, Or.inl rfl⟩
            | some t =>
                obtain ⟨s, a, dh⟩ := t
                have hcand : candidate_ok used h b (some (s, a, dh)) :=
                  find_best_nearby_fixed_ok dist scored used h b loc none (some (s, a, dh))
                    (fun _ _ _ hx => Option.noConfusion hx) hfb
                obtain ⟨ha_used, hdh, hdh_le, hb_ok⟩ := hcand s a dh rfl
                obtain ⟨new', hdate, hacts, hused, hdis, hnd, hsum, hb', hbnn⟩ :=
                  ih (day.add_activity a) (a :: used) (h - dh) (b - a.price) a.location
                    day' used' b' heq
                refine ⟨a :: new', ?_, ?_, ?_, ?_, ?_, ?_, ?_, ?_⟩
                · simpa [DayPlan.add_activity] using hdate
                · rw [hacts]
                  simp [DayPlan.add_activity]
                · rw [hused]
                  simp
                · intro x hx
                  rcases List.mem_cons.mp hx with rfl | hx2
                  · exact ha_used
                  · intro hxu
                    exact hdis x hx2 (List.mem_cons_of_mem a hxu)
                · refine List.nodup_cons.mpr ⟨?_, hnd⟩
                  intro hmem
                  exact hdis a hmem (List.mem_cons_self a used)
                · have hm1 : max (h - dh) 0 = h - dh := max_eq_left (by linarith)
                  have hm2 : max h 0 = h := max_eq_left (by linarith)
                  rw [hm1] at hsum
                  rw [hm2]
                  simp only [List.map_cons, List.sum_cons]
                  linarith [hsum, hdh.ge, hdh.le]
                · rw [hb']
                  simp only [List.map_cons, List.sum_cons]
                  ring
                · right
                  rcases hbnn with hnil | hpos
                  · subst hnil
                    simpa [hb'] using hb_ok
                  · exact hpos
      · rw [if_neg hh] at heq
        simp only [Except.ok.injEq, Prod.mk.injEq] at heq
        obtain ⟨h1, h2, h3⟩ := heq
        subst h1; subst h2; subst h3
        exact ⟨[], rfl, by simp, by simp, by simp, List.nodup_nil,
          by simp, by simp, Or.inl rfl⟩

/-- Specification of the repaired locked seeding: a seeded activity is
unused, carries its own duration and fits the remaining hours. -/
theorem seed_locked_fixed_spec (locked : List Activity) :
    ∀ (used : List Activity) (h : ℚ) (res : Option (Activity × ℚ)),
    seed_locked Activity.duration_attr_fixed locked used h = Except.ok res →
    ∀ l dh, res = some (l, dh) → l ∉ used ∧ dh = l.duration ∧ dh ≤ h := by
  induction locked with
  | nil =>
      intro used h res heq l dh hres
      simp only [seed_locked, Except.ok.injEq] at heq
      rw [← heq] at hres
      exact Option.noConfusion hres
  | cons x rest ih =>
      intro used h res heq l dh hres
      simp only [seed_locked] at heq
      by_cases hu : x ∈ used
      · rw [if_pos hu] at heq
        exact ih used h res heq l dh hres
      · rw [if_neg hu] at heq
        simp only [Activity.duration_attr_fixed, ebind_ok] at heq
        by_cases hfit : x.duration ≤ h
        · rw [if_pos hfit] at heq
          simp only [epure_eq, Except.ok.injEq] at heq
          rw [← heq] at hres
          simp only [Option.some.injEq, Prod.mk.injEq] at hres
          obtain ⟨h1, h2⟩ := hres
          subst h1; subst h2
          exact ⟨hu, rfl, hfit⟩
        · rw [if_neg hfit] at heq
          exact ih used h res heq l dh hres

/-- Specification of the repaired anchor selection: a selected anchor is
unused, carries its own duration, fits the hours and keeps the budget
non-negative. -/
theorem pick_anchor_fixed_spec (scored : List (ℚ × Activity)) :
    ∀ (used : List Activity) (h b : ℚ) (res : Option (Activity × ℚ)),
    pick_anchor Activity.duration_attr_fixed scored used h b = Except.ok res →
    ∀ a dh, res = some (a, dh) →
      a ∉ used ∧ dh = a.duration ∧ dh ≤ h ∧ 0 ≤ b - a.price := by
  induction scored with
  | nil =>
      intro used h b res heq a dh hres
      simp only [pick_anchor, Except.ok.injEq] at heq
      rw [← heq] at hres
      exact Option.noConfusion hres
  | cons p rest ih =>
      obtain ⟨s, x⟩ := p
      intro used h b res heq a dh hres
      simp only [pick_anchor] at heq
      by_cases hu : x ∈ used
      · rw [if_pos hu] at heq
        exact ih used h b res heq a dh hres
      · rw [if_neg hu] at heq
        simp only [Activity.duration_attr_fixed, ebind_ok] at heq
        by_cases hfit : x.duration ≤ h
        · rw [if_pos hfit] at heq
          by_cases hb : b - x.price ≥ 0
          · rw [if_pos hb] at heq
            simp only [epure_eq, Except.ok.injEq] at heq
            rw [← heq] at hres
            simp only [Option.some.injEq, Prod.mk.injEq] at hres
            obtain ⟨h1, h2⟩ := hres
            subst h1; subst h2
            exact ⟨hu, rfl, hfit, hb⟩
          · rw [if_neg hb] at heq
            exact ih used h b res heq a dh hres
        · rw [if_neg hfit] at heq
          exact ih used h b res heq a dh hres

/-- Specification of one repaired day pass: the produced day carries the
requested date, its activities are exactly the block pushed onto the used
list, they are fresh and pairwise distinct, their total duration respects
the daily ceiling, the budget is debited by their prices, and with no
locked activities a nonempty day leaves the budget non-negative. -/
theorem schedule_day_fixed_spec (dist : Loc → Loc → ℚ) (scored : List (ℚ × Activity))
    (locked : List Activity) (prefs : UserPreferences) (date : ℤ)
    (used : List Activity) (b : ℚ) (day : DayPlan) (used' : List Activity) (b' : ℚ)
    (heq : schedule_day Activity.duration_attr_fixed dist scored locked prefs date used b =
      Except.ok (day, used', b')) :
    day.date = date ∧
    used' = day.activities.reverse ++ used ∧
    (∀ x ∈ day.activities, x ∉ used) ∧
    day.activities.Nodup ∧
    (day.activities.map Activity.duration).sum ≤ max prefs.max_hours_per_day 0 ∧
    b' = b - (day.activities.map Activity.price).sum ∧
    (locked = [] → (day.activities = [] ∨ 0 ≤ b')) := by
  simp only [schedule_day] at heq
  cases hseed : seed_locked Activity.duration_attr_fixed locked used prefs.max_hours_per_day with
  | error e =>
      rw [hseed] at heq
      simp at heq
  | ok seeded =>
      rw [hseed] at heq
      simp only [ebind_ok] at heq
      cases seeded with
      | some t =>
          obtain ⟨l, dh⟩ := t
          obtain ⟨hl_used, hdh, hdh_le⟩ :=
            seed_locked_fixed_spec locked used prefs.max_hours_per_day _ hseed l dh rfl
          obtain ⟨new, hdate, hacts, hused, hdis, hnd, hsum, hb', hbnn⟩ :=
            fill_day_fixed_spec dist scored _ _ _ _ _ _ _ _ _ heq
          simp only [DayPlan.mk] at hacts hdate
          have hday : day.activities = l :: new := by simpa using hacts
          refine ⟨hdate, ?_, ?_, ?_, ?_, ?_, ?_⟩
          · rw [hused, hday]
            simp
          · intro x hx
            rw [hday] at hx
            rcases List.mem_cons.mp hx with rfl | hx2
            · exact hl_used
            · intro hxu
              exact hdis x hx2 (List.mem_cons_of_mem l hxu)
          · rw [hday]
            refine List.nodup_cons.mpr ⟨?_, hnd⟩
            intro hmem
            exact hdis l hmem (List.mem_cons_self l used)
          · rw [hday]
            have hm1 : max (prefs.max_hours_per_day - dh) 0 = prefs.max_hours_per_day - dh :=
              max_eq_left (by linarith)
            rw [hm1] at hsum
            simp only [List.map_cons, List.sum_cons]
            have : prefs.max_hours_per_day ≤ max prefs.max_hours_per_day 0 := le_max_left _ _
            linarith [hdh.ge, hdh.le]
          · rw [hday, hb']
            simp only [List.map_cons, List.sum_cons]
            ring
          · intro hl
            subst hl
            simp [seed_locked] at hseed
      | none =>
          cases hanc : pick_anchor Activity.duration_attr_fixed scored used
              prefs.max_hours_per_day b with
          | error e =>
              rw [hanc] at heq
              simp at heq
          | ok anchor =>
              rw [hanc] at heq
              simp only [ebind_ok] at heq
              cases anchor with
              | some t =>
                  obtain ⟨a, dh⟩ := t
                  obtain ⟨ha_used, hdh, hdh_le, hb_ok⟩ :=
                    pick_anchor_fixed_spec scored used prefs.max_hours_per_day b _ hanc a dh rfl
                  obtain ⟨new, hdate, hacts, hused, hdis, hnd, hsum, hb', hbnn⟩ :=
                    fill_day_fixed_spec dist scored _ _ _ _ _ _ _ _ _ heq
                  simp only [DayPlan.mk] at hacts hdate
                  have hday : day.activities = a :: new := by simpa using hacts
                  refine ⟨hdate, ?_, ?_, ?_, ?_, ?_, ?_⟩
                  · rw [hused, hday]
                    simp
                  · intro x hx
                    rw [hday] at hx
                    rcases List.mem_cons.mp hx with rfl | hx2
                    · exact ha_used
                    · intro hxu
                      exact hdis x hx2 (List.mem_cons_of_mem a hxu)
                  · rw [hday]
                    refine List.nodup_cons.mpr ⟨?_, hnd⟩
                    intro hmem
                    exact hdis a hmem (List.mem_cons_self a used)
                  · rw [hday]
                    have hm1 : max (prefs.max_hours_per_day - dh) 0 =
                        prefs.max_hours_per_day - dh := max_eq_left (by linarith)
                    rw [hm1] at hsum
                    simp only [List.map_cons, List.sum_cons]
                    have : prefs.max_hours_per_day ≤ max prefs.max_hours_per_day 0 :=
                      le_max_left _ _
                    linarith [hdh.ge, hdh.le]
                  · rw [hday, hb']
                    simp only [List.map_cons, List.sum_cons]
                    ring
                  · intro _
                    right
                    rcases hbnn with hnil | hpos
                    · subst hnil
                      simp only [List.map_nil, List.sum_nil] at hb'
                      rw [hb']
                      linarith
                    · exact hpos
              | none =>
                  obtain ⟨new, hdate, hacts, hused, hdis, hnd, hsum, hb', hbnn⟩ :=
                    fill_day_fixed_spec dist scored _ _ _ _ _ _ _ _ _ heq
                  simp only [DayPlan.mk] at hacts hdate
                  have hday : day.activities = new := by simpa using hacts
                  refine ⟨hdate, ?_, ?_, ?_, ?_, ?_, ?_⟩
                  · rw [hused, hday]
                  · intro x hx
                    rw [hday] at hx
                    exact hdis x hx
                  · rw [hday]
                    exact hnd
                  · rw [hday]
                    exact hsum
                  · rw [hday, hb']
                  · intro _
                    rw [hday]
                    exact hbnn

/-- Specification of the repaired day loop: one day per remaining count,
consecutive dates, no activity value repeated across the whole itinerary,
all placed activities fresh with respect to the incoming used list, the
daily hour ceiling respected, and (with no locked activities) the total
cost bounded by the incoming budget. -/
theorem day_loop_fixed_spec (dist : Loc → Loc → ℚ) (scored : List (ℚ × Activity))
    (locked : List Activity) (prefs : UserPreferences) :
    ∀ (n : ℕ) (date : ℤ) (used : List Activity) (b : ℚ) (itin : List DayPlan),
    day_loop Activity.duration_attr_fixed dist scored locked prefs n date used b =
      Except.ok itin →
    itin.length = n ∧
    (∀ i (hi : i < itin.length), (itin.get ⟨i, hi⟩).date = date + i) ∧
    ((itin.map DayPlan.activities).flatten.Nodup) ∧
    (∀ x ∈ (itin.map DayPlan.activities).flatten, x ∉ used) ∧
    (∀ d ∈ itin, (d.activities.map Activity.duration).sum ≤ max prefs.max_hours_per_day 0) ∧
    (locked = [] → 0 ≤ b → (itin.map DayPlan.total_cost).sum ≤ b) := by
  intro n
  induction n with
  | zero =>
      intro date used b itin heq
      simp only [day_loop, Except.ok.injEq] at heq
      subst heq
      refine ⟨rfl, ?_, by simp, by simp, by simp, ?_⟩
      · intro i hi
        simp at hi
      · intro _ hb
        simpa using hb
  | succ n ih =>
      intro date used b itin heq
      simp only [day_loop] at heq
      cases hsd : schedule_day Activity.duration_attr_fixed dist scored locked prefs
          date used b with
      | error e =>
          rw [hsd] at heq
          simp at heq
      | ok step =>
          obtain ⟨day, used1, b1⟩ := step
          rw [hsd] at heq
          simp only [ebind_ok] at heq
          cases hdl : day_loop Activity.duration_attr_fixed dist scored locked prefs
              n (date + 1) used1 b1 with
          | error e =>
              rw [hdl] at heq
              simp at heq
          | ok rest =>
              rw [hdl] at heq
              simp only [ebind_ok, epure_eq, Except.ok.injEq] at heq
              subst heq
              obtain ⟨hdate, hused1, hfresh, hnd, hsum, hb1, hbpos⟩ :=
                schedule_day_fixed_spec dist scored locked prefs date used b day used1 b1 hsd
              obtain ⟨hlen, hdates, hjnd, hjfresh, hjsum, hjcost⟩ :=
                ih (date + 1) used1 b1 rest hdl
              have hsub : ∀ x ∈ day.activities, x ∈ used1 := by
                intro x hx
                rw [hused1]
                exact List.mem_append_left used (List.mem_reverse.mpr hx)
              refine ⟨by simpa using hlen, ?_, ?_, ?_, ?_, ?_⟩
              · intro i hi
                cases i with
                | zero => simpa using hdate
                | succ j =>
                    have hj : j < rest.length := by
                      simp at hi
                      omega
                    have := hdates j hj
                    simp only [List.get_cons_succ]
                    rw [this]
                    push_cast
                    ring
              · simp only [List.map_cons, List.flatten_cons]
                refine List.nodup_append.mpr ⟨hnd, hjnd, ?_⟩
                intro x hx hx2
                exact hjfresh x hx2 (hsub x hx)
              · intro x hx
                simp only [List.map_cons, List.flatten_cons, List.mem_append] at hx
                rcases hx with hx | hx
                · exact hfresh x hx
                · intro hxu
                  apply hjfresh x hx
                  rw [hused1]
                  exact List.mem_append_right _ hxu
              · intro d hd
                rcases List.mem_cons.mp hd with rfl | hd2
                · exact hsum
                · exact hjsum d hd2
              · intro hl hb
                have hcost : DayPlan.total_cost day = (day.activities.map Activity.price).sum := rfl
                rcases hbpos hl with hempty | hpos
                · have hzero : (day.activities.map Activity.price).sum = 0 := by
                    rw [hempty]
                    simp
                  have hb1' : b1 = b := by
                    rw [hb1, hzero]
                    ring
                  have := hjcost hl (by rw [hb1']; exact hb)
                  simp only [List.map_cons, List.sum_cons, hcost, hzero]
                  rw [hb1'] at this
                  linarith
                · have := hjcost hl hpos
                  simp only [List.map_cons, List.sum_cons, hcost]
                  rw [hb1] at this
                  linarith

/-- With the duration_hours slip repaired, the scheduler returns one
DayPlan per calendar day of the inclusive range, in chronological order,
the i-th dated start_date + i. -/
theorem create_itinerary_fixed_day_count (dist : Loc → Loc → ℚ) (trip : Trip)
    (acts : List Activity) (prefs : UserPreferences) (locked : List Activity)
    (itin : List DayPlan)
    (heq : create_itinerary_fixed dist trip acts prefs locked = Except.ok itin) :
    itin.length = (trip.end_date - trip.start_date + 1).toNat ∧
    ∀ i (hi : i < itin.length), (itin.get ⟨i, hi⟩).date = trip.start_date + i := by
  simp only [create_itinerary_fixed, create_itinerary_gen] at heq
  cases hs : scoreList prefs acts with
  | error e =>
      rw [hs] at heq
      simp at heq
  | ok scored =>
      rw [hs] at heq
      simp only [ebind_ok] at heq
      obtain ⟨hlen, hdates, _, _, _, _⟩ :=
        day_loop_fixed_spec dist (sortDesc scored) locked prefs _ _ _ _ _ heq
      exact ⟨hlen, hdates⟩

/-- With the duration_hours slip repaired, no activity value occurs twice
across the whole returned itinerary (the used set tracks full value
equality, so value-identical entries are never both scheduled). -/
theorem create_itinerary_fixed_no_duplicates (dist : Loc → Loc → ℚ) (trip : Trip)
    (acts : List Activity) (prefs : UserPreferences) (locked : List Activity)
    (itin : List DayPlan)
    (heq : create_itinerary_fixed dist trip acts prefs locked = Except.ok itin) :
    ((itin.map DayPlan.activities).flatten).Nodup := by
  simp only [create_itinerary_fixed, create_itinerary_gen] at heq
  cases hs : scoreList prefs acts with
  | error e =>
      rw [hs] at heq
      simp at heq
  | ok scored =>
      rw [hs] at heq
      simp only [ebind_ok] at heq
      obtain ⟨_, _, hnd, _, _, _⟩ :=
        day_loop_fixed_spec dist (sortDesc scored) locked prefs _ _ _ _ _ heq
      exact hnd

/-- With the duration_hours slip repaired and a non-negative daily
ceiling, every returned day plan keeps its summed durations within
max_hours_per_day, whatever the candidate durations. -/
theorem create_itinerary_fixed_hour_ceiling (dist : Loc → Loc → ℚ) (trip : Trip)
    (acts : List Activity) (prefs : UserPreferences) (locked : List Activity)
    (itin : List DayPlan) (h0 : 0 ≤ prefs.max_hours_per_day)
    (heq : create_itinerary_fixed dist trip acts prefs locked = Except.ok itin) :
    ∀ d ∈ itin, (d.activities.map Activity.duration).sum ≤ prefs.max_hours_per_day := by
  simp only [create_itinerary_fixed, create_itinerary_gen] at heq
  cases hs : scoreList prefs acts with
  | error e =>
      rw [hs] at heq
      simp at heq
  | ok scored =>
      rw [hs] at heq
      simp only [ebind_ok] at heq
      obtain ⟨_, _, _, _, hsum, _⟩ :=
        day_loop_fixed_spec dist (sortDesc scored) locked prefs _ _ _ _ _ heq
      intro d hd
      have := hsum d hd
      rwa [max_eq_left h0] at this

/-- With the duration_hours slip repaired, no locked activities and a
non-negative budget, the total cost of the returned itinerary never
exceeds the trip budget. -/
theorem create_itinerary_fixed_budget (dist : Loc → Loc → ℚ) (trip : Trip)
    (acts : List Activity) (prefs : UserPreferences) (itin : List DayPlan)
    (hb : 0 ≤ trip.budget)
    (heq : create_itinerary_fixed dist trip acts prefs [] = Except.ok itin) :
    (itin.map DayPlan.total_cost).sum ≤ trip.budget := by
  simp only [create_itinerary_fixed, create_itinerary_gen] at heq
  cases hs : scoreList prefs acts with
  | error e =>
      rw [hs] at heq
      simp at heq
  | ok scored =>
      rw [hs] at heq
      simp only [ebind_ok] at heq
      obtain ⟨_, _, _, _, _, hcost⟩ :=
        day_loop_fixed_spec dist (sortDesc scored) [] prefs _ _ _ _ _ heq
      exact hcost rfl hb

/-- Concrete demonstration of the intended locked behaviour: on the C4
scenario the repaired scheduler seeds the over-budget locked tour on day
one (no budget check during seeding) and leaves the other days empty. -/
theorem create_itinerary_fixed_locked_demo :
    create_itinerary_fixed dist0 trip4 [actExp] prefs4 [actExp] =
      Except.ok [DayPlan.mk 0 [actExp], DayPlan.mk 1 [], DayPlan.mk 2 []] := by
  with_unfolding_all rfl

/-- Concrete demonstration of the intended all-too-expensive behaviour:
on the C9 scenario the repaired scheduler returns the full-length
sequence of empty day plans without error. -/
theorem create_itinerary_fixed_expensive_demo :
    create_itinerary_fixed dist0 trip9 [actE1, actE2] prefs9 [] =
      Except.ok [DayPlan.mk 0 [], DayPlan.mk 1 [], DayPlan.mk 2 []] := by
  with_unfolding_all rfl
